import Mathlib

/-!
Verification development for the output-template grammar-constrained decoding
extension.  The Python sources are shallowly embedded: mutable objects become
explicit state passing, Python exceptions become an `Except PyErr` result,
Python `dict`s become association lists, Python strings become `List Char`,
and unbounded `while` loops / recursion become fuel-indexed structural
recursion (a `recursionError` result marks fuel exhaustion, which corresponds
to Python's `RecursionError` / nontermination and is never hit for the fuels
used in concrete runs below).
-/

/-- Python exception kinds that the embedded code can raise.  `recursionError`
additionally models fuel exhaustion of the embedding. -/
inductive PyErr where
  | grammarError
  | validationError
  | valueError
  | typeError
  | assertionError
  | genError
  | keyError
  | indexError
  | attributeError
  | recursionError
deriving DecidableEq, Repr

/-- Model of a score entry of the `torch` tensor: an extended rational, with
`⊥` playing the role of `-float("inf")` (`MINUS_INF` in `utils.py`). -/
abbrev Score : Type := WithBot ℚ

/-- Embedding of `utils.AllowedTokens` (utils.py).  Token-id sets become
`Finset ℕ`.  The class invariant (asserted by `__init__`) is that at most one
of `allowed` / `banned` is non-empty; see `AllowedTokens.inv`. -/
structure AllowedTokens where
  allowed : Finset ℕ := ∅
  banned : Finset ℕ := ∅
  look_ahead : Bool := false
  allow_eos : Bool := false
deriving DecidableEq

/-- The invariant asserted by `AllowedTokens.__init__`: `allowed` and `banned`
are never both non-empty. -/
def AllowedTokens.inv (a : AllowedTokens) : Prop :=
  a.allowed = ∅ ∨ a.banned = ∅

instance (a : AllowedTokens) : Decidable a.inv := by
  unfold AllowedTokens.inv; infer_instance

/-- Body of `AllowedTokens.combine` (utils.py lines 40-71).  The Python method
recurses once on itself in the mixed `other.allowed and self.banned` branch
(`return other.combine(self)`); the `fuel` argument bounds that single
self-swap.  Failed `assert` statements inside the branches are modelled as
`Except.error .assertionError`. -/
def combineGo : Nat → AllowedTokens → AllowedTokens → Except PyErr AllowedTokens
  | 0, _, _ => .error .recursionError
  | fuel + 1, self, other =>
    if (self.allowed = ∅ ∧ self.banned = ∅) ∨ (other.allowed = ∅ ∧ other.banned = ∅) then
      -- One of self/other is 'allow all'
      .ok ⟨∅, ∅, self.look_ahead || other.look_ahead, self.allow_eos || other.allow_eos⟩
    else if self.allowed ≠ ∅ ∧ other.allowed ≠ ∅ then
      -- Both are 'allow only these'
      if self.banned = ∅ ∧ other.banned = ∅ then
        .ok ⟨self.allowed ∪ other.allowed, ∅,
             self.look_ahead || other.look_ahead, self.allow_eos || other.allow_eos⟩
      else .error .assertionError
    else if self.banned ≠ ∅ ∧ other.banned ≠ ∅ then
      -- Both are 'ban only these'
      if self.allowed = ∅ ∧ other.allowed = ∅ then
        .ok ⟨∅, self.banned ∩ other.banned,
             self.look_ahead || other.look_ahead, self.allow_eos || other.allow_eos⟩
      else .error .assertionError
    else if self.allowed ≠ ∅ ∧ other.banned ≠ ∅ then
      -- Allow everything but those we both banned
      if self.banned = ∅ ∧ other.allowed = ∅ then
        .ok ⟨∅, other.banned \ self.allowed,
             self.look_ahead || other.look_ahead, self.allow_eos || other.allow_eos⟩
      else .error .assertionError
    else if other.allowed ≠ ∅ ∧ self.banned ≠ ∅ then
      -- As above but reversed
      combineGo fuel other self
    else .error .assertionError

/-- `AllowedTokens.combine`: the reversed mixed branch recurses exactly once,
so fuel 2 reproduces the Python behaviour on every input. -/
def AllowedTokens.combine (self other : AllowedTokens) : Except PyErr AllowedTokens :=
  combineGo 2 self other

/-- Embedding of `AllowedTokens.set_ahead` (utils.py lines 73-80). -/
def AllowedTokens.set_ahead (self : AllowedTokens) : AllowedTokens :=
  ⟨self.allowed, self.banned, true, self.allow_eos⟩

/-- Embedding of `AllowedTokens.apply` (utils.py lines 93-107).  The score
tensor is a function from token id to `Score`; `scores[~s] = MINUS_INF` sets
every entry whose boolean mask is `False` to `⊥`, leaving the rest unchanged.
The first block's mask is `True` exactly on `allowed` plus the EOS id; the
second block's mask is `False` exactly on `banned \ allowed` plus, when
`allow_eos` is false, the EOS id. -/
def AllowedTokens.apply (self : AllowedTokens) (eos : ℕ) (scores : ℕ → Score) : ℕ → Score :=
  let scores1 : ℕ → Score :=
    if self.allowed ≠ ∅ ∧ self.banned = ∅ then
      fun i => if i ∈ self.allowed ∨ i = eos then scores i else ⊥
    else scores
  if self.banned ≠ ∅ ∨ self.allow_eos = false then
    fun i =>
      if (i ∈ self.banned ∧ i ∉ self.allowed) ∨ (self.allow_eos = false ∧ i = eos) then ⊥
      else scores1 i
  else scores1

/-! ## Token dictionary

`utils.get_token_dictionary` produces a Python dict mapping every token id to
its decoded string.  It is embedded as an association list `List (ℕ × List Char)`
with first-match lookup (`d[token_id]`, raising `KeyError` when absent). -/

/-- Lookup in the token dictionary, `d[token_id]`. -/
def dlookup (d : List (ℕ × List Char)) (k : ℕ) : Option (List Char) :=
  (d.find? (fun p => p.1 == k)).map Prod.snd

/-- Loop of `state_machine.get_suffix_prefix` (state_machine.py lines 88-94):
starting at `i = 1`, increment `i` while `i <= min(len(s), len(p))` and the
last `i` characters of `s` equal the first `i` characters of `p`; the result
is the final `i - 1`.  Fuel `min + 1` covers every iteration of the Python
`while` loop. -/
def suffixPrefixGo (s p : List Char) : Nat → Nat → Nat
  | _, 0 => 0
  | i, fuel + 1 =>
    if i ≤ min s.length p.length ∧ s.drop (s.length - i) = p.take i then
      suffixPrefixGo s p (i + 1) fuel
    else i - 1

/-- Embedding of `state_machine.get_suffix_prefix(suffix_from, prefix_from)`:
returns `prefix_from[:i-1]` for the final loop counter `i`.  Note the loop
stops at the FIRST `i` whose suffix/prefix comparison fails, so the result is
the longest *contiguous run* `k` with `s[-i:] == p[:i]` for every `i ≤ k` —
not in general the longest suffix of `s` that is a prefix of `p`. -/
def suffixPrefixGreedy (s p : List Char) : List Char :=
  p.take (suffixPrefixGo s p 1 (min s.length p.length + 1))

/-! ## Regular-expression model

`symbols.RegExp` only ever compiles two pattern shapes: character classes
`[...]` / `[^...]` taken verbatim from the grammar text (possibly with a `+`
appended by the parser's `A+` rewrite), anchored as `"^" + value + "$"` for
positive classes and stripped to `"[" + value[2:]` for negative ones.  The
model below interprets exactly these shapes for classes listing literal
characters (no ranges or escapes), which covers every pattern exercised
here. -/

/-- Strip the `+` appended by the `A+` parser rewrite, if present. -/
def stripPlus (v : List Char) : List Char :=
  if v.getLast? = some '+' then v.dropLast else v

/-- `value.startswith("[^")` — the `negative` attribute of `symbols.RegExp`. -/
def isNegClass (v : List Char) : Bool :=
  v.take 2 = ['[', '^']

/-- The literal characters listed inside the class brackets. -/
def classChars (v : List Char) : List Char :=
  let core := stripPlus v
  (if isNegClass v then core.drop 2 else core.drop 1).dropLast

/-- Whether a single character matches the (possibly negated) class. -/
def charMatches (v : List Char) (c : Char) : Bool :=
  if isNegClass v then !((classChars v).contains c) else (classChars v).contains c

/-- `re.search` on the negative compilation `"[" + value[2:]`: true iff the
string contains a character of the (forbidden) class. -/
def reSearchClass (v : List Char) (t : List Char) : Bool :=
  t.any (fun c => (classChars v).contains c)

/-- `re.match` on the anchored compilation `"^" + value + "$"`: a lone class
matches exactly one class character; a class followed by `+` matches a
non-empty run of them. -/
def reFullmatchClass (v : List Char) (t : List Char) : Bool :=
  if v.getLast? = some '+' then !t.isEmpty && t.all (charMatches v)
  else
    match t with
    | [c] => charMatches v c
    | _ => false

/-! ## Symbol tree (symbols.py) and matcher tree (state_machine.py) -/

/-- Embedding of the `symbols.py` symbol classes.  `Terminal` carries its
`value`; `RegExp` carries its raw pattern `value` and the `next` terminal
value recorded by `RegExp.allow_next` (None until `Sequence.validate` sets
it); `Repeat.mode` is `'*'` or `'?'`. -/
inductive Symb where
  | terminal (value : List Char)
  | regexp (value : List Char) (next : Option (List Char))
  | anyToken
  | nonTerminal (name : List Char)
  | sequence (items : List Symb)
  | alternative (items : List Symb)
  | repeatSym (mode : Char) (item : Symb)

mutual

/-- Structural equality test on symbols.  Python compares these objects by
identity; on the tree-shaped grammars considered here the two notions agree
(`DecidableEq` cannot be derived for this nested inductive, hence the manual
`Bool` function). -/
def symbBeq : Symb → Symb → Bool
  | .terminal v, .terminal w => v == w
  | .regexp v n, .regexp w n' => v == w && n == n'
  | .anyToken, .anyToken => true
  | .nonTerminal n, .nonTerminal n' => n == n'
  | .sequence xs, .sequence ys => symbBeqList xs ys
  | .alternative xs, .alternative ys => symbBeqList xs ys
  | .repeatSym m i, .repeatSym m' i' => m == m' && symbBeq i i'
  | _, _ => false

/-- Pointwise `symbBeq` on symbol lists. -/
def symbBeqList : List Symb → List Symb → Bool
  | [], [] => true
  | x :: xs, y :: ys => symbBeq x y && symbBeqList xs ys
  | _, _ => false

end

/-- Grammar context shared by all matcher operations: the name → symbol rule
map of the `Grammar` object and the process-wide token dictionary. -/
structure Ctx where
  rules : List (List Char × Symb)
  dict : List (ℕ × List Char)

/-- Rule lookup, `grammar.rules[name]` (first match). -/
def ruleLookup (rules : List (List Char × Symb)) (n : List Char) : Option Symb :=
  (rules.find? (fun p => p.1 == n)).map Prod.snd

/-- Loop of `Grammar.resolve` (grammar.py lines 42-52): follow `NonTerminal`
references, accumulating them in `dont_loop`, raising `ValidationError` on an
unknown name or on a degenerate `NonTerminal` cycle.  Python compares
`dont_loop` members by object identity; the embedding uses structural
equality, which agrees on the concrete grammars considered here.  A chain of
`NonTerminal`s is no longer than the rule map, so fuel `rules.length + 1`
suffices. -/
def resolveGo (rules : List (List Char × Symb)) : Nat → Symb → List Symb → Except PyErr Symb
  | 0, _, _ => .error .recursionError
  | fuel + 1, s, dontLoop =>
    match s with
    | .nonTerminal n =>
      let dl := s :: dontLoop
      match ruleLookup rules n with
      | none => .error .validationError
      | some r => if dl.any (fun x => symbBeq x r) then .error .validationError
                  else resolveGo rules fuel r dl
    | _ => .ok s

/-- `Grammar.resolve(symbol)`. -/
def resolveSym (rules : List (List Char × Symb)) (s : Symb) : Except PyErr Symb :=
  resolveGo rules (rules.length + 1) s [s]

/-- Embedding of `state_machine.Advance`. -/
inductive SMAdvance where
  | Again
  | Done
  | Reject
  | TryNext
deriving DecidableEq, Repr

/-- Embedding of the `state_machine.py` matcher classes.  Each constructor
carries the mutable cursor state of the corresponding Python object:
`terminalM` is `TerminalMatcher` (terminal value and `index`), `regexpM` is
`RegExpMatcher` (pattern and recorded `next`), `sequenceM` is
`SequenceMatcher` (the symbol's child list, the lazily populated matcher
slots, and `index`), `alternativeM` is `AlternativeMatcher` (the live set,
kept as a list), and `repeatM` is `RepeatMatcher` (mode, the symbol's inner
item for re-entry, the current `effective_item`, and `inside`). -/
inductive Matcher where
  | terminalM (value : List Char) (index : Nat)
  | regexpM (value : List Char) (next : Option (List Char))
  | anyTokenM
  | sequenceM (symItems : List Symb) (items : List (Option Matcher)) (index : Nat)
  | alternativeM (items : List Matcher)
  | repeatM (mode : Char) (symItem : Symb) (effective_item : Matcher) (inside : Bool)

/-- One step of `Symbol.enter` (symbols.py): `ent` is the recursive entry
function at the next smaller fuel, already composed with `Grammar.resolve`
where the source resolves before entering. -/
def symbolEnterStep (rules : List (List Char × Symb))
    (ent : Symb → Except PyErr Matcher) : Symb → Except PyErr Matcher
  | .terminal v => .ok (.terminalM v 0)
  | .regexp v nx => .ok (.regexpM v nx)
  | .anyToken => .ok .anyTokenM
  | .nonTerminal n => do
    let r ← resolveSym rules (.nonTerminal n)
    ent r
  | .sequence items =>
    -- SequenceMatcher(self, [None for m in items]).ensure_matcher(g)
    match items with
    | [] => .error .indexError
    | s0 :: rest => do
      let r ← resolveSym rules s0
      let m ← ent r
      .ok (.sequenceM (s0 :: rest) (some m :: rest.map (fun _ => none)) 0)
  | .alternative items => do
    let ms ← items.mapM (fun i => do
      let r ← resolveSym rules i
      ent r)
    .ok (.alternativeM ms)
  | .repeatSym mode item => do
    let r ← resolveSym rules item
    let m ← ent r
    .ok (.repeatM mode item m false)

/-- `Symbol.enter(g)`, fuel-indexed over the depth of the entered tree. -/
def symbolEnter (rules : List (List Char × Symb)) : Nat → Symb → Except PyErr Matcher
  | 0 => fun _ => .error .recursionError
  | fuel + 1 => symbolEnterStep rules (symbolEnter rules fuel)

/-- `g.resolve(symbol).enter(g)`, the composition used by `ensure_matcher` and
by `RepeatMatcher.advance`. -/
def resolveEnter (rules : List (List Char × Symb)) (fuel : Nat) (s : Symb) :
    Except PyErr Matcher := do
  let r ← resolveSym rules s
  symbolEnter rules fuel r

/-- Embedding of `SequenceMatcher.ensure_matcher(g, i)` (state_machine.py
lines 189-192): populate slot `i` if it is still `None`.  `entR` performs
`g.resolve(...).enter(g)`. -/
def ensureMatcher (entR : Symb → Except PyErr Matcher)
    (symItems : List Symb) (items : List (Option Matcher)) (i : Nat) :
    Except PyErr (List (Option Matcher)) :=
  match items[i]? with
  | none => .error .indexError
  | some (some _) => .ok items
  | some none =>
    match symItems[i]? with
    | none => .error .indexError
    | some s => (entR s).map (fun m => items.set i (some m))

/-- The loop of `AlternativeMatcher.advance` (state_machine.py lines 247-258):
iterate over the live children, calling `adv` (the child `advance`) on each.
Children answering `Reject` or `TryNext` are removed (a first `TryNext`
upgrades `best_a` from `Reject`); children answering `Done` set
`best_a = Done` and are removed; children answering `Again` set
`best_a = Done` and are kept (with their updated state). -/
def altLoop (adv : Matcher → Except PyErr (SMAdvance × Matcher)) :
    List Matcher → SMAdvance → Except PyErr (List Matcher × SMAdvance)
  | [], best => .ok ([], best)
  | m :: rest, best =>
    match adv m with
    | .error e => .error e
    | .ok (a, m') =>
      if a = .Reject ∨ a = .TryNext then
        altLoop adv rest (if a = .TryNext ∧ best = .Reject then .TryNext else best)
      else if a = .Done then
        altLoop adv rest .Done
      else
        match altLoop adv rest .Done with
        | .error e => .error e
        | .ok (l, b) => .ok (m' :: l, b)

/-- One step of `Matcher.advance(g, token_id)` for every matcher class of
state_machine.py.  `adv` is the recursive advance at the next smaller fuel
(used for children and for `SequenceMatcher`'s re-dispatch on `TryNext`);
`entR` is `g.resolve(...).enter(g)` for lazy child materialisation. -/
def matcherAdvanceStep (dict : List (ℕ × List Char))
    (adv : Matcher → Except PyErr (SMAdvance × Matcher))
    (entR : Symb → Except PyErr Matcher) (tid : ℕ) :
    Matcher → Except PyErr (SMAdvance × Matcher)
  | .terminalM v index =>
    -- TerminalMatcher.advance, state_machine.py lines 71-85
    match dlookup dict tid with
    | none => .error .keyError
    | some s =>
      if s = (v.drop index).take s.length then
        .ok (if v.length ≤ index + s.length then (.Done, .terminalM v (index + s.length))
             else (.Again, .terminalM v (index + s.length)))
      else if index = 0 then
        -- Special case, allow entering mid-token
        match suffixPrefixGreedy s v with
        | [] => .ok (.Reject, .terminalM v 0)
        | c :: r =>
          .ok (if v.length ≤ (c :: r).length then (.Done, .terminalM v (c :: r).length)
               else (.Again, .terminalM v (c :: r).length))
      else .ok (.Reject, .terminalM v index)
  | .regexpM v nx =>
    -- RegExpMatcher.advance, state_machine.py lines 141-149
    match dlookup dict tid with
    | none => .error .keyError
    | some s =>
      if isNegClass v then
        if reSearchClass v s then .ok (.Reject, .regexpM v nx)
        else .ok (.Done, .regexpM v nx)
      else
        if reFullmatchClass v s then .ok (.Done, .regexpM v nx)
        else .ok (.Reject, .regexpM v nx)
  | .anyTokenM => .ok (.Again, .anyTokenM)
  | .sequenceM symItems items index =>
    -- SequenceMatcher.advance, state_machine.py lines 211-220
    match items[index]? with
    | none => .error .indexError
    | some none => .error .attributeError
    | some (some child) =>
      match adv child with
      | .error e => .error e
      | .ok (a, child') =>
        let items1 := items.set index (some child')
        if a = .Done ∨ a = .TryNext then
          if index < symItems.length - 1 then
            match ensureMatcher entR symItems items1 (index + 1) with
            | .error e => .error e
            | .ok items2 =>
              if a = .TryNext then adv (.sequenceM symItems items2 (index + 1))
              else .ok (.Again, .sequenceM symItems items2 (index + 1))
          else .ok (a, .sequenceM symItems items1 index)
        else .ok (a, .sequenceM symItems items1 index)
  | .alternativeM items =>
    -- AlternativeMatcher.advance, state_machine.py lines 247-261
    match altLoop adv items .Reject with
    | .error e => .error e
    | .ok (items', best) =>
      match items' with
      | [] => .ok (best, .alternativeM [])
      | _ :: _ => .ok (.Again, .alternativeM items')
  | .repeatM mode symItem eff inside =>
    -- RepeatMatcher.advance, state_machine.py lines 281-296
    match adv eff with
    | .error e => .error e
    | .ok (a, eff') =>
      if a = .Reject then
        if inside then .ok (.Reject, .repeatM mode symItem eff' inside)
        else .ok (.TryNext, .repeatM mode symItem eff' inside)
      else if a = .Done then
        if mode = '*' then
          match entR symItem with
          | .error e => .error e
          | .ok m2 => .ok (.Again, .repeatM mode symItem m2 false)
        else .ok (.Done, .repeatM mode symItem eff' inside)
      else if a = .Again then .ok (.Again, .repeatM mode symItem eff' true)
      else .ok (a, .repeatM mode symItem eff' inside)

/-- `Matcher.advance(g, token_id)`, fuel-indexed.  Python's recursion is
unbounded; every recursive call (child advance, `SequenceMatcher`'s
re-dispatch, lazy `enter`) uses the next smaller fuel. -/
def matcherAdvance (ctx : Ctx) (tid : ℕ) : Nat → Matcher → Except PyErr (SMAdvance × Matcher)
  | 0 => fun _ => .error .recursionError
  | fuel + 1 =>
    matcherAdvanceStep ctx.dict (matcherAdvance ctx tid fuel)
      (resolveEnter ctx.rules fuel) tid

/-! ## RegExpMatcher.get_allowed_tokens (state_machine.py lines 109-139) -/

/-- The banned-id set computed by the negative branch of
`RegExpMatcher.get_allowed_tokens` (state_machine.py lines 111-129): a token
containing a forbidden character is banned unless the symbol records a `next`
terminal and the greedy suffix-prefix `s` of (token, next.value) is non-empty,
shorter than the token, and the head `t[0:-len(s)]` contains no forbidden
character. -/
def regexpBannedNeg (dict : List (ℕ × List Char)) (v : List Char)
    (next : Option (List Char)) : List ℕ :=
  dict.filterMap fun p =>
    if reSearchClass v p.2 then
      match next with
      | some nv =>
        -- Check if there's prefix of next terminal that is also suffix of this token
        let s := suffixPrefixGreedy p.2 nv
        -- If yes, check if rest of this token can be allowed
        if s ≠ [] ∧ s.length < p.2.length ∧
            reSearchClass v (p.2.take (p.2.length - s.length)) = false then
          none
        else some p.1
      | none => some p.1
    else none

/-- The allowed-id set computed by the positive branch of
`RegExpMatcher.get_allowed_tokens` (state_machine.py lines 131-139). -/
def regexpAllowedPos (dict : List (ℕ × List Char)) (v : List Char) : List ℕ :=
  dict.filterMap fun p => if reFullmatchClass v p.2 then some p.1 else none

/-- `RegExpMatcher.get_allowed_tokens(g)`: negative symbols return a banned
set, positive symbols an allowed set (the caches only memoise these values
and are dropped from the embedding). -/
def regexpGetAllowedTokens (dict : List (ℕ × List Char)) (v : List Char)
    (next : Option (List Char)) : AllowedTokens :=
  if isNegClass v then ⟨∅, (regexpBannedNeg dict v next).toFinset, false, false⟩
  else ⟨(regexpAllowedPos dict v).toFinset, ∅, false, false⟩

/-! ## The older session machinery of grammar.py

`grammar.py` in this tree carries its own symbol classes with in-object
cursor state; the `Grammar` session object dispatches `advance`/`match`
dynamically on `self.active_symbol`.  The session-level operations
(`Grammar.advance`, `Grammar.update_scores`) are embedded below, abstracted
over that dynamic dispatch: `symAdv`/`symMatch` stand for the active symbol's
bound `advance`/`match` methods, and `α` for its state. -/

/-- Embedding of `grammar.Advance` (grammar.py lines 137-140). -/
inductive GAdvance where
  | Again
  | Next
  | Reject
deriving DecidableEq, Repr

/-- Embedding of `grammar.Match` (grammar.py lines 130-134). -/
inductive GMatch where
  | Reject
  | Accept
  | TryNext
deriving DecidableEq, Repr

/-- The session state of `grammar.Grammar`: the active symbol, or `none` once
the grammar has terminated (`self.active_symbol = None`). -/
structure GrammarState (α : Type) where
  active_symbol : Option α

/-- Embedding of `Grammar.advance(token_id)` (grammar.py lines 99-116).  The
body runs inside `try: ... except GenerationError`, so a `genError` raised by
the body (including the explicit `raise GenerationError` on a non-EOS
`Reject`) is caught and clears the active symbol, while any other exception
escaping `symAdv` propagates to the caller. -/
def grammarAdvance {α : Type} (symAdv : α → ℕ → Except PyErr (GAdvance × α)) (eos : ℕ)
    (st : GrammarState α) (tid : ℕ) : Except PyErr (GrammarState α) :=
  let body : Except PyErr (GrammarState α) :=
    match st.active_symbol with
    | none => .ok st
    | some s =>
      match symAdv s tid with
      | .error e => .error e
      | .ok (a, s') =>
        if a = GAdvance.Reject then
          if tid = eos then .ok ⟨none⟩ else .error .genError
        else if a = GAdvance.Next then .ok ⟨none⟩
        else .ok ⟨some s'⟩
  match body with
  | .error .genError => .ok ⟨none⟩
  | r => r

/-- Embedding of `Grammar.update_scores(scores)` (grammar.py lines 78-97).
With an active symbol, every dictionary token whose `match` is `Reject`, or
`TryNext` while not being the EOS id, is set to `-inf`.  With no active
symbol the whole row is filled with `-inf` and the EOS entry is then set to
`1000.0`. -/
def grammarUpdateScores {α : Type} (symMatch : α → ℕ → GMatch) (st : GrammarState α)
    (eos : ℕ) (dkeys : List ℕ) (scores : ℕ → Score) : ℕ → Score :=
  match st.active_symbol with
  | some s => fun i =>
    if i ∈ dkeys ∧ (symMatch s i = GMatch.Reject ∨ (symMatch s i = GMatch.TryNext ∧ i ≠ eos))
    then ⊥ else scores i
  | none => fun i => if i = eos then ((1000 : ℚ) : Score) else ⊥

/-- Embedding of `grammar.RegExp.match(token_id)` (grammar.py lines 241-245):
EOS is rejected outright; otherwise the anchored pattern `"^value$"` is
matched against the decoded token (`Match(bool(...))` yields `Accept` or
`Reject`). -/
def gRegExpMatch (d : List (ℕ × List Char)) (eos : ℕ) (value : List Char) (tid : ℕ) :
    Except PyErr GMatch :=
  if tid = eos then .ok .Reject
  else
    match dlookup d tid with
    | none => .error .keyError
    | some s => .ok (if reFullmatchClass value s then .Accept else .Reject)

/-- Embedding of `grammar.RegExp.advance(g, token_id)` (grammar.py lines
247-250).  On a failed match the source executes `raise Advance.Reject`;
raising an `IntEnum` member is not a `BaseException`, so Python raises
`TypeError` — which `Grammar.advance`'s `except GenerationError` does not
catch. -/
def gRegExpAdvance (d : List (ℕ × List Char)) (eos : ℕ) (value : List Char) (tid : ℕ) :
    Except PyErr (GAdvance × List Char) :=
  match gRegExpMatch d eos value tid with
  | .error e => .error e
  | .ok m => if m = GMatch.Reject then .error .typeError else .ok (.Next, value)

/-! ## The grammar parser (grammar.py lines 465-547) and Grammar.reset

`grammar.py`'s parser builds trees of its own symbol classes; they are
embedded as the pure tree `GSym` (runtime cursor fields such as
`Terminal.index` are session state and are reset on entry, so they are not
part of the parsed tree). -/

/-- Embedding of the `grammar.py` symbol classes as a pure tree. -/
inductive GSym where
  | terminal (value : List Char)
  | regexp (value : List Char)
  | nonTerminal (name : List Char)
  | sequence (items : List GSym)
  | alternative (items : List GSym)
  | repeatG (mode : Char) (item : GSym)

mutual

/-- Structural equality test on `GSym` (Python compares these objects by
identity; the grammars below make the two notions agree). -/
def gsymBeq : GSym → GSym → Bool
  | .terminal v, .terminal w => v == w
  | .regexp v, .regexp w => v == w
  | .nonTerminal n, .nonTerminal n' => n == n'
  | .sequence xs, .sequence ys => gsymBeqList xs ys
  | .alternative xs, .alternative ys => gsymBeqList xs ys
  | .repeatG m i, .repeatG m' i' => m == m' && gsymBeq i i'
  | _, _ => false

/-- Pointwise `gsymBeq` on lists. -/
def gsymBeqList : List GSym → List GSym → Bool
  | [], [] => true
  | x :: xs, y :: ys => gsymBeq x y && gsymBeqList xs ys
  | _, _ => false

end

/-- The single-quote character, written via its code point to keep the source
free of quote-escape noise. -/
def squote : Char := Char.ofNat 39

/-- The backslash character. -/
def bslash : Char := '\\'

/-- Python's `\s` class (as used by `re` on these ASCII inputs). -/
def isPyWs (c : Char) : Bool :=
  c == ' ' || c == '\t' || c == '\n' || c == '\r' || c == '\x0b' || c == '\x0c'

/-- The `[ \t]` class used by `RE_TERMINAL`, `RE_OR` and `RE_NEWLINE`. -/
def isSpaceTab (c : Char) : Bool :=
  c == ' ' || c == '\t'

/-- The rule-name class `[-a-z]`. -/
def isNameChar (c : Char) : Bool :=
  c == '-' || (97 ≤ c.toNat && c.toNat ≤ 122)

/-- Deterministic equivalent of `RE_RULE.match(text)`
(`\s*([-a-z]+)\s*::=\s*(.*)` with DOTALL): returns the rule name and the text
after `::=` and subsequent whitespace.  Greedy matching with backtracking
agrees with this scan because `\s` and `[-a-z]` both exclude `:`. -/
def matchRule (text : List Char) : Option (List Char × List Char) :=
  let t1 := text.dropWhile isPyWs
  let name := t1.takeWhile isNameChar
  if name.isEmpty then none
  else
    let t2 := (t1.dropWhile isNameChar).dropWhile isPyWs
    if t2.take 3 = [':', ':', '='] then some (name, (t2.drop 3).dropWhile isPyWs)
    else none

/-- Deterministic equivalent of `RE_TERMINAL.match(text)`
(`[ \t]*([-a-z]+)[ \t]*(.*)`): a bare rule name with surrounding spaces. -/
def matchTermName (text : List Char) : Option (List Char × List Char) :=
  let t1 := text.dropWhile isSpaceTab
  let name := t1.takeWhile isNameChar
  if name.isEmpty then none
  else some (name, (t1.dropWhile isNameChar).dropWhile isSpaceTab)

/-- Deterministic equivalent of `RE_OR.match(text)`
(`[ \t\n]*\|[ \t]*(.*)`). -/
def matchOr (text : List Char) : Option (List Char) :=
  match text.dropWhile (fun c => isSpaceTab c || c == '\n') with
  | '|' :: rest => some (rest.dropWhile isSpaceTab)
  | _ => none

/-- Deterministic equivalent of `RE_NEWLINE.match(text)`
(`[ \t]*\n[ \t\n]*(.*)`). -/
def matchNewline (text : List Char) : Option (List Char) :=
  match text.dropWhile isSpaceTab with
  | '\n' :: rest => some (rest.dropWhile (fun c => isSpaceTab c || c == '\n'))
  | _ => none

/-- `haystack.index(needle, start)`: index of the first occurrence of
`needle` at or after `start` (`none` models the `ValueError`). -/
def indexOfFrom (haystack : List Char) (needle : Char) (start : Nat) : Option Nat :=
  ((haystack.drop start).findIdx? (fun c => c == needle)).map (fun i => i + start)

/-- Loop of `grammar.find_unescaped_index` (grammar.py lines 465-471): find
the next occurrence of `needle` not preceded by a backslash.  All call sites
start at 1, so the Python quirk `haystack[index - 1]` with `index = 0` (which
would wrap to the last character) never fires. -/
def findUnescapedGo (haystack : List Char) (needle : Char) : Nat → Nat → Option Nat
  | 0, _ => none
  | fuel + 1, start =>
    match indexOfFrom haystack needle start with
    | none => none
    | some idx =>
      if haystack[idx - 1]? = some bslash then findUnescapedGo haystack needle fuel (idx + 1)
      else some idx

/-- `grammar.find_unescaped_index(haystack, needle, start)`. -/
def findUnescapedIndex (haystack : List Char) (needle : Char) (start : Nat) : Option Nat :=
  findUnescapedGo haystack needle (haystack.length + 1) start

/-- Hexadecimal digit value, for `\uXXXX` escapes. -/
def hexVal (c : Char) : Nat :=
  if 48 ≤ c.toNat ∧ c.toNat ≤ 57 then c.toNat - 48
  else if 97 ≤ c.toNat ∧ c.toNat ≤ 102 then c.toNat - 87
  else if 65 ≤ c.toNat ∧ c.toNat ≤ 70 then c.toNat - 55
  else 0

/-- Model of `text.encode("utf-8").decode("unicode_escape")` used for quoted
terminals (grammar.py line 481), covering the escapes the grammar syntax
documents (`\n \t \r \" \' \\ \uXXXX`); an unknown escape is kept verbatim,
as `unicode_escape` does. -/
def unicodeEscapeGo : Nat → List Char → List Char
  | 0, _ => []
  | fuel + 1, text =>
    match text with
    | [] => []
    | c0 :: rest0 =>
      if c0 = bslash then
        match rest0 with
        | [] => [c0]
        | c :: rest =>
          if c = 'n' then '\n' :: unicodeEscapeGo fuel rest
          else if c = 't' then '\t' :: unicodeEscapeGo fuel rest
          else if c = 'r' then '\r' :: unicodeEscapeGo fuel rest
          else if c = '"' then '"' :: unicodeEscapeGo fuel rest
          else if c = squote then squote :: unicodeEscapeGo fuel rest
          else if c = bslash then bslash :: unicodeEscapeGo fuel rest
          else if c = 'u' then
            match rest with
            | a :: b :: c2 :: d :: rest2 =>
              Char.ofNat (4096 * hexVal a + 256 * hexVal b + 16 * hexVal c2 + hexVal d)
                :: unicodeEscapeGo fuel rest2
            | _ => bslash :: 'u' :: unicodeEscapeGo fuel rest
          else bslash :: c :: unicodeEscapeGo fuel rest
      else c0 :: unicodeEscapeGo fuel rest0

/-- `unicode_escape` decoding of a terminal body. -/
def unicodeEscape (text : List Char) : List Char :=
  unicodeEscapeGo (text.length + 1) text

/-- Constructor behaviour of `grammar.Alternative.__init__` (grammar.py lines
338-345): directly nested alternatives are flattened one level. -/
def gAltFlatten : List GSym → List GSym
  | [] => []
  | .alternative xs :: rest => xs ++ gAltFlatten rest
  | s :: rest => s :: gAltFlatten rest

/-- `Alternative(items)`. -/
def mkGAlternative (items : List GSym) : GSym :=
  .alternative (gAltFlatten items)

/-- Constructor behaviour of `grammar.Repeat.__init__` (grammar.py lines
397-404): a directly nested `Repeat` is unwrapped to its item; the new mode
(one of `+`, `*`, `?`) wins. -/
def mkGRepeat (mode : Char) (item : GSym) : GSym :=
  match item with
  | .repeatG _ inner => .repeatG mode inner
  | _ => .repeatG mode item

/-- `parse_rule`'s singleton unwrapping (grammar.py lines 542-546): a
one-element sequence becomes its element. -/
def unwrapSeq : List GSym → GSym
  | [x] => x
  | items => .sequence items

/-- The `A+` / `A*` / `A?` rewrite of `parse_sequence` (grammar.py lines
513-522): pop the last parsed expression and wrap it in a `Repeat`; for `+`
on a `RegExp`, the pattern gets `+` appended. -/
def repeatRewrite (c : Char) (left : GSym) : GSym :=
  match c, left with
  | '+', .regexp v => mkGRepeat '+' (.regexp (v ++ ['+']))
  | _, _ => mkGRepeat c left

/-- The `while text:` loop of `grammar.parse_sequence(text, parentheses)`
(grammar.py lines 474-539), with the accumulating local list `seq` made
explicit.  The recursive `parse_rule` calls of the `(` and `|` branches are
inlined as `parseSeqGo` runs followed by `unwrapSeq` (`parse_rule` is exactly
that composition).  Every recursive call, including the loop's next
iteration, consumes one unit of fuel. -/
def parseSeqGo : Nat → Bool → List GSym → List Char → Except PyErr (List GSym × List Char)
  | 0, _, _, _ => .error .recursionError
  | fuel + 1, parenth, seq, text =>
    match text with
    | [] => .ok (seq, [])
    | c :: rest =>
      if c = '"' ∨ c = squote then
        -- Terminal rule
        match findUnescapedIndex text c 1 with
        | none => .error .grammarError
        | some endIdx =>
          parseSeqGo fuel parenth
            (seq ++ [.terminal (unicodeEscape ((text.drop 1).take (endIdx - 1)))])
            (text.drop (endIdx + 1))
      else
        match matchTermName text with
        | some (name, rest') =>
          -- Non-terminal rule
          parseSeqGo fuel parenth (seq ++ [.nonTerminal name]) rest'
        | none =>
          if isSpaceTab c then
            -- Whitespace
            parseSeqGo fuel parenth seq rest
          else if c = '[' then
            -- Regexp rule (successful `re.compile` assumed for these classes)
            match findUnescapedIndex text ']' 1 with
            | none => .error .grammarError
            | some endIdx =>
              parseSeqGo fuel parenth (seq ++ [.regexp (text.take (endIdx + 1))])
                (text.drop (endIdx + 1))
          else if c = '(' then
            -- Parenthesized rule
            match parseSeqGo fuel true [] rest with
            | .error e => .error e
            | .ok (items, rest') =>
              parseSeqGo fuel parenth (seq ++ [unwrapSeq items]) rest'
          else if parenth ∧ c = ')' then
            .ok (seq, rest)
          else if c = '+' ∨ c = '*' ∨ c = '?' then
            -- Repeat rule
            match seq.getLast? with
            | none => .error .grammarError
            | some left => parseSeqGo fuel parenth (seq.dropLast ++ [repeatRewrite c left]) rest
          else
            match matchOr text with
            | some rest' =>
              match seq.getLast? with
              | none => .error .grammarError
              | some left =>
                match parseSeqGo fuel parenth [] rest' with
                | .error e => .error e
                | .ok (ritems, rest'') =>
                  .ok (seq.dropLast ++ [mkGAlternative [left, unwrapSeq ritems]], rest'')
            | none =>
              match matchNewline text with
              | some rest' =>
                -- Newline
                if parenth then parseSeqGo fuel parenth seq rest'
                else .ok (seq, rest')
              | none => .error .grammarError

/-- `grammar.parse_rule(text, parentheses)` (grammar.py lines 542-546). -/
def parseRule (fuel : Nat) (parenth : Bool) (text : List Char) :
    Except PyErr (GSym × List Char) :=
  match parseSeqGo fuel parenth [] text with
  | .error e => .error e
  | .ok (items, rest) => .ok (unwrapSeq items, rest)

/-- Python dict assignment `rules[name] = sym`: overwrite the existing entry
for `name` or append a new one (insertion order preserved). -/
def assocUpdate {β : Type} : List (List Char × β) → List Char → β → List (List Char × β)
  | [], n, s => [(n, s)]
  | (a, b) :: rest, n, s =>
    if a = n then (a, s) :: rest else (a, b) :: assocUpdate rest n s

/-- Python dict lookup `rules[name]` / `name in rules`. -/
def assocLookup {β : Type} : List (List Char × β) → List Char → Option β
  | [], _ => none
  | (a, b) :: rest, n => if a = n then some b else assocLookup rest n

/-- The rule-reading loop of `Grammar.reset` (grammar.py lines 29-34):
while text remains, match `RE_RULE` (else `GrammarError("expected rule")`)
and parse the rule body; duplicate rule names simply overwrite the earlier
entry, exactly as Python dict assignment does. -/
def resetLoop : Nat → List (List Char × GSym) → List Char → Except PyErr (List (List Char × GSym))
  | 0, _, _ => .error .recursionError
  | fuel + 1, rules, text =>
    match text with
    | [] => .ok rules
    | _ :: _ =>
      match matchRule text with
      | none => .error .grammarError
      | some (name, body) =>
        match parseRule fuel false body with
        | .error e => .error e
        | .ok (sym, rest) => resetLoop fuel (assocUpdate rules name sym) rest

/-- Loop of `Grammar.resolve` for the `grammar.py` symbol classes (grammar.py
lines 42-52), mirroring `resolveGo`. -/
def gResolveGo (rules : List (List Char × GSym)) : Nat → GSym → List GSym → Except PyErr GSym
  | 0, _, _ => .error .recursionError
  | fuel + 1, s, dontLoop =>
    match s with
    | .nonTerminal n =>
      let dl := s :: dontLoop
      match assocLookup rules n with
      | none => .error .validationError
      | some r =>
        if dl.any (fun x => gsymBeq x r) then .error .validationError
        else gResolveGo rules fuel r dl
    | _ => .ok s

/-- `Grammar.resolve(symbol)` for `grammar.py` symbols. -/
def gResolveSym (rules : List (List Char × GSym)) (s : GSym) : Except PyErr GSym :=
  gResolveGo rules (rules.length + 1) s [s]

/-- The per-item loop of `grammar.Collection.validate` (grammar.py lines
257-265): resolve each child, reject direct self-reference and indirect
self-reference through an `Alternative`, then validate the resolved child.
`val` is the recursive `validate` at the next smaller fuel. -/
def gValidateItems (rules : List (List Char × GSym)) (val : GSym → Except PyErr Unit)
    (self : GSym) : List GSym → Except PyErr Unit
  | [] => .ok ()
  | i :: rest => do
    let ri ← gResolveSym rules i
    if gsymBeq ri self then .error .grammarError
    else do
      match ri with
      | .alternative sub => do
        let rs ← sub.mapM (fun j => gResolveSym rules j)
        if rs.any (fun x => gsymBeq x self) then .error .grammarError else pure ()
      | _ => pure ()
      val ri
      gValidateItems rules val self rest

/-- One step of `Symbol.validate(g)` for the `grammar.py` classes: `Terminal`
and `RegExp` inherit the base no-op (grammar.py has no terminal-emptiness
check), `NonTerminal` resolves and validates the target (grammar.py lines
188-192), `Sequence`/`Alternative` use `Collection.validate`, and `Repeat`
validates its item (grammar.py lines 422-423). -/
def gValidateStep (rules : List (List Char × GSym)) (val : GSym → Except PyErr Unit) :
    GSym → Except PyErr Unit
  | .terminal _ => .ok ()
  | .regexp _ => .ok ()
  | .nonTerminal n => do
    let r ← gResolveSym rules (.nonTerminal n)
    if gsymBeq r (.nonTerminal n) then .error .grammarError else val r
  | .sequence items => gValidateItems rules val (.sequence items) items
  | .alternative items => gValidateItems rules val (.alternative items) items
  | .repeatG _ item => val item

/-- `Symbol.validate(g)`, fuel-indexed. -/
def gValidate (rules : List (List Char × GSym)) : Nat → GSym → Except PyErr Unit
  | 0 => fun _ => .error .recursionError
  | fuel + 1 => gValidateStep rules (gValidate rules fuel)

/-- Sequential `reset` of a list of resolved symbols (the iteration of
`Alternative.reset`, grammar.py lines 358-361). -/
def gResetList (rst : GSym → Except PyErr Unit) : List GSym → Except PyErr Unit
  | [] => .ok ()
  | e :: rest =>
    match rst e with
    | .error er => .error er
    | .ok _ => gResetList rst rest

/-- One step of `Symbol.reset(g)` for the `grammar.py` classes: `Terminal`
rewinds its index, `RegExp` inherits the no-op, `NonTerminal.reset` raises
`TypeError` (grammar.py line 195), `Sequence` resolves all children and
resets the first (grammar.py lines 289-293), `Alternative` resolves and
resets every child, `Repeat` resets its mode bookkeeping and resolved item
(grammar.py lines 412-420).  Only the raised exceptions are observable in
this pure-tree embedding. -/
def gResetStep (rules : List (List Char × GSym)) (rst : GSym → Except PyErr Unit) :
    GSym → Except PyErr Unit
  | .terminal _ => .ok ()
  | .regexp _ => .ok ()
  | .nonTerminal _ => .error .typeError
  | .sequence items => do
    let eff ← items.mapM (fun x => gResolveSym rules x)
    match eff with
    | [] => .ok ()
    | e :: _ => rst e
  | .alternative items => do
    let eff ← items.mapM (fun x => gResolveSym rules x)
    gResetList rst eff
  | .repeatG _ item => do
    let r ← gResolveSym rules item
    rst r

/-- `Symbol.reset(g)`, fuel-indexed. -/
def gReset (rules : List (List Char × GSym)) : Nat → GSym → Except PyErr Unit
  | 0 => fun _ => .error .recursionError
  | fuel + 1 => gResetStep rules (gReset rules fuel)

/-- The literal rule name `root`. -/
def rootName : List Char := ['r', 'o', 'o', 't']

/-- Embedding of session creation, `Grammar.__init__(definition)` →
`Grammar.reset(definition)` (grammar.py lines 16-40) followed by
`enter_rule("root")` (lines 54-63): read all rules, require `root`, validate
it, resolve it to the active symbol and reset that symbol.  The result is the
final rule map and active symbol. -/
def grammarNew (fuel : Nat) (text : List Char) :
    Except PyErr (List (List Char × GSym) × GSym) :=
  match resetLoop fuel [] text with
  | .error e => .error e
  | .ok rules =>
    match assocLookup rules rootName with
    | none => .error .validationError
    | some rootSym =>
      match gValidate rules fuel rootSym with
      | .error e => .error e
      | .ok _ =>
        match gResolveSym rules rootSym with
        | .error e => .error e
        | .ok active =>
          match gReset rules fuel active with
          | .error e => .error e
          | .ok _ => .ok (rules, active)

/-! ## Claims about the AllowedTokens algebra -/

/-- C10: for every `AllowedTokens` value with `allow_eos = true` whose
`banned` set does not contain the EOS id, `apply` leaves the EOS entry of the
score vector unchanged — also when `allowed` is non-empty and the EOS id is
not a member of `allowed`, because the first masking block always sets the
EOS position of its keep-mask to `True`. -/
theorem C10_apply_preserves_eos (a : AllowedTokens) (eos : ℕ) (scores : ℕ → Score)
    (h1 : a.allow_eos = true) (h2 : eos ∉ a.banned) :
    a.apply eos scores eos = scores eos := by
  unfold AllowedTokens.apply
  by_cases hA : a.allowed = ∅ <;> by_cases hC : a.banned = ∅ <;>
    simp [hA, hC, h1, h2]

/-- Witness for C10 at a concrete input where `allowed` is non-empty and does
not contain the EOS id 0. -/
theorem C10_apply_preserves_eos_witness :
    AllowedTokens.apply ⟨{5}, ∅, false, true⟩ 0 (fun _ => ((1 : ℚ) : Score)) 0
      = ((1 : ℚ) : Score) :=
  C10_apply_preserves_eos ⟨{5}, ∅, false, true⟩ 0 (fun _ => ((1 : ℚ) : Score)) rfl
    (by simp)

/-- Modelled from the spec (§4.B `combine` rules), for comparison with the
source `AllowedTokens.combine`: allow-all absorbs; two positives union
`allowed`; two negatives intersect `banned`; a mixed pair is negative with
banned = (banned side).banned − (allowed side).allowed; `allow_eos` and
`look_ahead` are OR-combined in every case. -/
def combineSpec (x y : AllowedTokens) : AllowedTokens :=
  if (x.allowed = ∅ ∧ x.banned = ∅) ∨ (y.allowed = ∅ ∧ y.banned = ∅) then
    ⟨∅, ∅, x.look_ahead || y.look_ahead, x.allow_eos || y.allow_eos⟩
  else if x.allowed ≠ ∅ ∧ y.allowed ≠ ∅ then
    ⟨x.allowed ∪ y.allowed, ∅, x.look_ahead || y.look_ahead, x.allow_eos || y.allow_eos⟩
  else if x.banned ≠ ∅ ∧ y.banned ≠ ∅ then
    ⟨∅, x.banned ∩ y.banned, x.look_ahead || y.look_ahead, x.allow_eos || y.allow_eos⟩
  else if x.allowed ≠ ∅ then
    ⟨∅, y.banned \ x.allowed, x.look_ahead || y.look_ahead, x.allow_eos || y.allow_eos⟩
  else
    ⟨∅, x.banned \ y.allowed, x.look_ahead || y.look_ahead, x.allow_eos || y.allow_eos⟩

/-- C5: on inputs satisfying the at-most-one-side invariant, the source
`combine` returns (with no assertion failure) exactly the value prescribed by
the specification's case analysis, OR-combined flags included. -/
theorem C5_combine_matches_spec (x y : AllowedTokens) (hx : x.inv) (hy : y.inv) :
    x.combine y = .ok (combineSpec x y) := by
  by_cases hxa : x.allowed = ∅ <;> by_cases hxb : x.banned = ∅ <;>
    by_cases hya : y.allowed = ∅ <;> by_cases hyb : y.banned = ∅
  all_goals try exact absurd hx (fun h => h.elim hxa hxb)
  all_goals try exact absurd hy (fun h => h.elim hya hyb)
  all_goals
    simp [AllowedTokens.combine, combineGo, combineSpec, hxa, hxb, hya, hyb, Bool.or_comm]

/-- Witness for C5 at a concrete mixed (positive, negative) pair:
`combine` produces the negative result with banned `{1, 2} \ {1}` and both
flags true. -/
theorem C5_combine_matches_spec_witness :
    AllowedTokens.combine ⟨{1}, ∅, false, true⟩ ⟨∅, {1, 2}, true, false⟩
        = .ok (combineSpec ⟨{1}, ∅, false, true⟩ ⟨∅, {1, 2}, true, false⟩) ∧
      combineSpec ⟨{1}, ∅, false, true⟩ ⟨∅, {1, 2}, true, false⟩
        = ⟨∅, {1, 2} \ {1}, true, true⟩ :=
  ⟨C5_combine_matches_spec ⟨{1}, ∅, false, true⟩ ⟨∅, {1, 2}, true, false⟩
      (Or.inr rfl) (Or.inl rfl),
    by simp [combineSpec]⟩

/-! ## Claims about the matcher state machine -/

/-- C4: when the currently active child of a `SequenceMatcher` rejects the
token, the sequence's `advance` returns `Reject` directly; the child slot
keeps the child's (possibly updated) state, the index does not move, and no
later child of the sequence sees the token. -/
theorem C4_sequence_reject (ctx : Ctx) (tid : ℕ) (fuel : Nat) (symItems : List Symb)
    (items : List (Option Matcher)) (index : Nat) (child child' : Matcher)
    (hslot : items[index]? = some (some child))
    (hadv : matcherAdvance ctx tid fuel child = .ok (.Reject, child')) :
    matcherAdvance ctx tid (fuel + 1) (.sequenceM symItems items index)
      = .ok (.Reject, .sequenceM symItems (items.set index (some child')) index) := by
  simp [matcherAdvance, matcherAdvanceStep, hslot, hadv]

/-- Witness for C4: a one-terminal sequence rejecting an unrelated token. -/
theorem C4_sequence_reject_witness :
    matcherAdvance ⟨[], [(1, ['b'])]⟩ 1 2
        (.sequenceM [.terminal ['a']] [some (.terminalM ['a'] 0)] 0)
      = .ok (.Reject, .sequenceM [.terminal ['a']] [some (.terminalM ['a'] 0)] 0) := by
  have h := C4_sequence_reject ⟨[], [(1, ['b'])]⟩ 1 1 [.terminal ['a']]
    [some (.terminalM ['a'] 0)] 0 (.terminalM ['a'] 0) (.terminalM ['a'] 0) rfl rfl
  simpa using h

/-- Auxiliary invariant of `altLoop`: when every live child answers something
other than `Again`, every child is removed, and the final best answer is
`Done` whenever the running best already was or some child answered `Done`. -/
theorem altLoop_no_again (adv : Matcher → Except PyErr (SMAdvance × Matcher)) :
    ∀ (items : List Matcher) (best : SMAdvance),
      (∀ m ∈ items, ∃ a m', adv m = .ok (a, m') ∧ a ≠ SMAdvance.Again) →
      ∃ b, altLoop adv items best = .ok ([], b) ∧
        (best = .Done → b = .Done) ∧
        ((∃ m ∈ items, ∃ m', adv m = .ok (.Done, m')) → b = .Done) := by
  intro items
  induction items with
  | nil =>
    intro best _
    exact ⟨best, rfl, id, fun h => absurd h (by simp)⟩
  | cons m rest ih =>
    intro best h
    obtain ⟨a, m', ham, hne⟩ := h m (List.mem_cons_self m rest)
    have hrest : ∀ x ∈ rest, ∃ a x', adv x = .ok (a, x') ∧ a ≠ SMAdvance.Again :=
      fun x hx => h x (List.mem_cons_of_mem m hx)
    cases a with
    | Again => exact absurd rfl hne
    | Done =>
      obtain ⟨b, hb, hbest, _⟩ := ih SMAdvance.Done hrest
      refine ⟨b, ?_, fun _ => hbest rfl, fun _ => hbest rfl⟩
      simp [altLoop, ham, hb]
    | Reject =>
      obtain ⟨b, hb, hbest, hdone⟩ := ih best hrest
      refine ⟨b, ?_, hbest, ?_⟩
      · simp [altLoop, ham, hb]
      · rintro ⟨w, hw, w', hww⟩
        rcases List.mem_cons.mp hw with rfl | hw'
        · rw [ham] at hww
          simp at hww
        · exact hdone ⟨w, hw', w', hww⟩
    | TryNext =>
      have hbest' : ∀ b0, (if SMAdvance.TryNext = SMAdvance.TryNext ∧ best = SMAdvance.Reject
          then SMAdvance.TryNext else best) = b0 → True := fun _ _ => trivial
      by_cases hbr : best = SMAdvance.Reject
      · obtain ⟨b, hb, _, hdone⟩ := ih SMAdvance.TryNext hrest
        refine ⟨b, ?_, fun hd => absurd (hbr ▸ hd) (by simp), ?_⟩
        · simp [altLoop, ham, hbr, hb]
        · rintro ⟨w, hw, w', hww⟩
          rcases List.mem_cons.mp hw with rfl | hw'
          · rw [ham] at hww
            simp at hww
          · exact hdone ⟨w, hw', w', hww⟩
      · obtain ⟨b, hb, hbest, hdone⟩ := ih best hrest
        refine ⟨b, ?_, hbest, ?_⟩
        · simp [altLoop, ham, hbr, hb]
        · rintro ⟨w, hw, w', hww⟩
          rcases List.mem_cons.mp hw with rfl | hw'
          · rw [ham] at hww
            simp at hww
          · exact hdone ⟨w, hw', w', hww⟩

/-- C1 (amended): if at least one live child's `advance` returns `Done` and
no live child returns `Again`, the `AlternativeMatcher` returns `Done` and
the live set becomes empty.  (The unamended claim, quantifying over arbitrary
live sets, fails when another child answers `Again`: see the
counterexample.) -/
theorem C1_alternative_done (ctx : Ctx) (tid : ℕ) (fuel : Nat) (items : List Matcher)
    (hall : ∀ m ∈ items, ∃ a m',
      matcherAdvance ctx tid fuel m = .ok (a, m') ∧ a ≠ SMAdvance.Again)
    (hdone : ∃ m ∈ items, ∃ m', matcherAdvance ctx tid fuel m = .ok (.Done, m')) :
    matcherAdvance ctx tid (fuel + 1) (.alternativeM items)
      = .ok (.Done, .alternativeM []) := by
  obtain ⟨b, hb, _, hbd⟩ :=
    altLoop_no_again (matcherAdvance ctx tid fuel) items SMAdvance.Reject hall
  have hbD : b = SMAdvance.Done := hbd hdone
  subst hbD
  simp [matcherAdvance, matcherAdvanceStep, hb]

/-- Witness for C1: a two-child alternative where both children finish on the
token; `advance` answers `Done` and empties the live set. -/
theorem C1_alternative_done_witness :
    matcherAdvance ⟨[], [(1, ['a'])]⟩ 1 2
        (.alternativeM [.terminalM ['a'] 0, .terminalM ['a'] 0])
      = .ok (.Done, .alternativeM []) :=
  C1_alternative_done ⟨[], [(1, ['a'])]⟩ 1 1 [.terminalM ['a'] 0, .terminalM ['a'] 0]
    (by
      intro m hm
      rcases List.mem_cons.mp hm with rfl | hm'
      · exact ⟨.Done, .terminalM ['a'] 1, rfl, by decide⟩
      · rcases List.mem_singleton.mp hm' with rfl
        exact ⟨.Done, .terminalM ['a'] 1, rfl, by decide⟩)
    ⟨.terminalM ['a'] 0, List.mem_cons_self _ _, .terminalM ['a'] 1, rfl⟩

/-- Counterexample for C1 as stated: with live children `Terminal('a')` (at
index 0) and `Terminal('ab')` (at index 0) and a token decoding to `"a"`, the
first child's `advance` returns `Done`, yet the alternative's `advance`
returns `Again` — not `Done` — and keeps the `Again` child live instead of
emptying the set. -/
theorem C1_alternative_done_cex :
    matcherAdvance ⟨[], [(1, ['a'])]⟩ 1 1 (.terminalM ['a'] 0)
        = .ok (.Done, .terminalM ['a'] 1) ∧
      matcherAdvance ⟨[], [(1, ['a'])]⟩ 1 2
          (.alternativeM [.terminalM ['a'] 0, .terminalM ['a', 'b'] 0])
        = .ok (.Again, .alternativeM [.terminalM ['a', 'b'] 1]) ∧
      SMAdvance.Again ≠ SMAdvance.Done := by
  exact ⟨rfl, rfl, by decide⟩

/-- Taking a prefix is idempotent through its own length. -/
theorem list_take_take_length (l : List Char) (k : Nat) :
    l.take k = l.take ((l.take k).length) := by
  rw [List.length_take, List.take_eq_take]
  omega

/-- Loop invariant of `suffixPrefixGo`: starting from a counter whose last
accepted value satisfies the suffix/prefix equation, the result is `0` or a
count `k ≤ min` with `s[-k:] == p[:k]`. -/
theorem suffixPrefixGo_spec (s p : List Char) :
    ∀ (fuel i : Nat), 1 ≤ i →
      i - 1 ≤ min s.length p.length →
      (i - 1 = 0 ∨ s.drop (s.length - (i - 1)) = p.take (i - 1)) →
      (suffixPrefixGo s p i fuel = 0 ∨
        (suffixPrefixGo s p i fuel ≤ min s.length p.length ∧
          s.drop (s.length - suffixPrefixGo s p i fuel)
            = p.take (suffixPrefixGo s p i fuel))) := by
  intro fuel
  induction fuel with
  | zero => intro i _ _ _; left; rfl
  | succ f ih =>
    intro i h1 h2 h3
    by_cases hc : i ≤ min s.length p.length ∧ s.drop (s.length - i) = p.take i
    · have hstep : suffixPrefixGo s p i (f + 1) = suffixPrefixGo s p (i + 1) f := by
        simp only [suffixPrefixGo]
        rw [if_pos hc]
      rw [hstep]
      have h2' : (i + 1) - 1 ≤ min s.length p.length := by omega
      have h3' : (i + 1) - 1 = 0 ∨ s.drop (s.length - ((i + 1) - 1)) = p.take ((i + 1) - 1) := by
        right
        simpa using hc.2
      exact ih (i + 1) (by omega) h2' h3'
    · have hstep : suffixPrefixGo s p i (f + 1) = i - 1 := by
        simp only [suffixPrefixGo]
        rw [if_neg hc]
      rw [hstep]
      rcases h3 with h0 | hd
      · exact Or.inl h0
      · exact Or.inr ⟨h2, hd⟩

/-- Characterisation of `suffixPrefixGreedy`: the result is a prefix of `p`
of its own length, and, when non-empty, a suffix of `s`. -/
theorem suffixPrefixGreedy_spec (s p : List Char) :
    suffixPrefixGreedy s p = p.take (suffixPrefixGreedy s p).length ∧
      (suffixPrefixGreedy s p ≠ [] →
        s.drop (s.length - (suffixPrefixGreedy s p).length) = suffixPrefixGreedy s p) := by
  have hk := suffixPrefixGo_spec s p (min s.length p.length + 1) 1 le_rfl (by omega)
    (Or.inl rfl)
  unfold suffixPrefixGreedy
  constructor
  · exact list_take_take_length p _
  · intro hne
    rcases hk with hk0 | ⟨hkm, hkd⟩
    · rw [hk0] at hne
      simp at hne
    · have hmin := Nat.min_le_right s.length p.length
      have hlen : (p.take (suffixPrefixGo s p 1 (min s.length p.length + 1))).length
          = suffixPrefixGo s p 1 (min s.length p.length + 1) := by
        rw [List.length_take]
        omega
      rw [hlen]
      exact hkd

/-- C2 (amended): for a `TerminalMatcher` at index 0 over `v` and a token
decoding to `s` with `s != v[0:len(s)]`, `advance` consults
`get_suffix_prefix(s, v)` — the greedy run, which when non-empty is a
non-empty suffix of `s` that is a prefix of `v`, but not in general the
*longest* such suffix.  If that value is empty, `advance` returns `Reject`
and the index stays 0; otherwise the index becomes its length `l` and the
result is `Done` when `l` covers `v` and `Again` otherwise.  (The unamended
claim, which uses the longest suffix, fails: see the counterexample.) -/
theorem C2_terminal_mid_entry (ctx : Ctx) (tid : ℕ) (fuel : Nat) (v s : List Char)
    (hlookup : dlookup ctx.dict tid = some s)
    (hne : s ≠ v.take s.length) :
    (suffixPrefixGreedy s v = [] →
      matcherAdvance ctx tid (fuel + 1) (.terminalM v 0)
        = .ok (.Reject, .terminalM v 0)) ∧
    (suffixPrefixGreedy s v ≠ [] →
      matcherAdvance ctx tid (fuel + 1) (.terminalM v 0)
          = .ok ((if v.length ≤ (suffixPrefixGreedy s v).length then SMAdvance.Done
                  else SMAdvance.Again),
                 .terminalM v (suffixPrefixGreedy s v).length) ∧
        suffixPrefixGreedy s v = v.take (suffixPrefixGreedy s v).length ∧
        s.drop (s.length - (suffixPrefixGreedy s v).length) = suffixPrefixGreedy s v) := by
  constructor
  · intro h
    simp [matcherAdvance, matcherAdvanceStep, hlookup, hne, h]
  · intro h
    obtain ⟨c, r, hcr⟩ := List.exists_cons_of_ne_nil h
    have hspec := suffixPrefixGreedy_spec s v
    refine ⟨?_, hspec.1, hspec.2 h⟩
    rw [hcr]
    simp only [matcherAdvance, matcherAdvanceStep, hlookup, hne, hcr]
    simp [hne]
    by_cases hv : v.length ≤ r.length + 1 <;> simp [hv]

/-- Witness for C2: terminal `"abc"`, token `"xa"`; the greedy suffix-prefix
is `"a"`, so the matcher enters mid-token at index 1 and answers `Again`. -/
theorem C2_terminal_mid_entry_witness :
    matcherAdvance ⟨[], [(7, ['x', 'a'])]⟩ 7 1 (.terminalM ['a', 'b', 'c'] 0)
      = .ok (.Again, .terminalM ['a', 'b', 'c'] 1) := by
  have h := (C2_terminal_mid_entry ⟨[], [(7, ['x', 'a'])]⟩ 7 0 ['a', 'b', 'c'] ['x', 'a']
    rfl (by decide)).2 (by decide)
  rw [show suffixPrefixGreedy ['x', 'a'] ['a', 'b', 'c'] = ['a'] from rfl] at h
  simpa using h.1

/-- Counterexample for C2 as stated: terminal value `"ab"`, token `"aab"`.
The longest non-empty suffix of the token that is a prefix of the value is
`"ab"` itself, whose length 2 equals `len(value)`, so the claim prescribes
`Done` with index 2 — but `get_suffix_prefix` stops at its first mismatch
(`"b" != "a"`), returns the empty string, and `advance` returns `Reject`
leaving the index at 0. -/
theorem C2_terminal_mid_entry_cex :
    matcherAdvance ⟨[], [(1, ['a', 'a', 'b'])]⟩ 1 1 (.terminalM ['a', 'b'] 0)
        = .ok (.Reject, .terminalM ['a', 'b'] 0) ∧
      (['a', 'a', 'b'] : List Char) ≠ (['a', 'b'] : List Char).take 3 ∧
      (['a', 'a', 'b'] : List Char) = ['a'] ++ ['a', 'b'] ∧
      (['a', 'b'] : List Char).take 2 = ['a', 'b'] ∧
      (['a', 'b'] : List Char).length = 2 := by
  exact ⟨rfl, by decide, by decide, by decide, by decide⟩

/-- C3 (amended): for a negative `RegExp` with recorded next-terminal value
`nv` and a dictionary token `t` containing a forbidden character, the token
id is absent from the banned set of `get_allowed_tokens` iff the *greedy*
suffix-prefix `s = get_suffix_prefix(t, nv)` is non-empty, strictly shorter
than the token, and the head `t[0:-len(s)]` contains no forbidden character.
(The unamended claim — phrased as "some tail of the token that is a prefix of
`next.value` with a clean head" — fails because the code checks only the
greedy suffix-prefix and insists on a proper tail: see the
counterexample.) -/
theorem C3_negative_lookahead (dict : List (ℕ × List Char)) (v nv : List Char)
    (tid : ℕ) (t : List Char)
    (hneg : isNegClass v = true)
    (hmem : (tid, t) ∈ dict)
    (hkey : ∀ p ∈ dict, p.1 = tid → p.2 = t)
    (hforb : reSearchClass v t = true) :
    tid ∉ (regexpGetAllowedTokens dict v (some nv)).banned ↔
      (suffixPrefixGreedy t nv ≠ [] ∧ (suffixPrefixGreedy t nv).length < t.length ∧
        reSearchClass v (t.take (t.length - (suffixPrefixGreedy t nv).length)) = false) := by
  have hval : ∀ (p : ℕ × List Char) (b : ℕ),
      (if reSearchClass v p.2 then
        (if suffixPrefixGreedy p.2 nv ≠ [] ∧ (suffixPrefixGreedy p.2 nv).length < p.2.length ∧
            reSearchClass v (p.2.take (p.2.length - (suffixPrefixGreedy p.2 nv).length)) = false
          then none else some p.1)
        else none) = some b → b = p.1 := by
    intro p b h
    split_ifs at h with h1 h2
    all_goals
      first
        | exact Option.noConfusion h
        | exact (Option.some.inj h).symm
  simp only [regexpGetAllowedTokens, hneg, if_true, List.mem_toFinset]
  constructor
  · intro hnot
    by_contra hncond
    apply hnot
    simp only [regexpBannedNeg, List.mem_filterMap]
    refine ⟨(tid, t), hmem, ?_⟩
    rw [if_pos hforb, if_neg hncond]
  · intro hcond hmem2
    simp only [regexpBannedNeg, List.mem_filterMap] at hmem2
    obtain ⟨p, hp, hfp⟩ := hmem2
    obtain ⟨pid, pt⟩ := p
    have hb : tid = pid := hval (pid, pt) tid hfp
    have ht : pt = t := hkey (pid, pt) hp hb.symm
    subst hb
    subst ht
    rw [if_pos hforb, if_pos hcond] at hfp
    exact Option.noConfusion hfp

/-- Witness for C3: class `[^b]`, next terminal `"b"`, token `"ab"`.  The
greedy suffix-prefix is `"b"`, a proper tail with clean head `"a"`, so token
id 3 is not banned. -/
theorem C3_negative_lookahead_witness :
    3 ∉ (regexpGetAllowedTokens [(3, ['a', 'b'])] ['[', '^', 'b', ']']
        (some ['b'])).banned :=
  (C3_negative_lookahead [(3, ['a', 'b'])] ['[', '^', 'b', ']'] ['b'] 3 ['a', 'b']
    (by decide) (by decide) (by decide) (by decide)).mpr (by decide)

/-- Counterexample for C3 as stated: class `[^b]`, next terminal `"ab"`,
token `"aab"`.  The forbidden character occurs only in the tail `"ab"`, which
is a prefix of the next terminal's value, and the head `"a"` is clean — so
the claim says the id must be absent from the banned set.  But the greedy
suffix-prefix of (`"aab"`, `"ab"`) is empty (`"b" != "a"` at the first step),
so the code bans the token. -/
theorem C3_negative_lookahead_cex :
    0 ∈ (regexpGetAllowedTokens [(0, ['a', 'a', 'b'])] ['[', '^', 'b', ']']
          (some ['a', 'b'])).banned ∧
      reSearchClass ['[', '^', 'b', ']'] ['a', 'a', 'b'] = true ∧
      (['a', 'a', 'b'] : List Char) = ['a'] ++ ['a', 'b'] ∧
      (['a', 'b'] : List Char).take 2 = ['a', 'b'] ∧
      reSearchClass ['[', '^', 'b', ']'] ['a'] = false := by
  decide

/-! ## Claims about the Grammar session and parser (grammar.py) -/

/-- C6 (code bug): with active symbol `RegExp("[a]")` and a sampled non-EOS
token decoding to `"x"` that the matcher rejects, `Grammar.advance` does NOT
handle the rejection: `RegExp.advance` executes `raise Advance.Reject`, which
raises `TypeError` (an `IntEnum` member is not an exception), and
`except GenerationError` does not catch it — so the exception propagates to
the caller instead of clearing the matcher, contradicting both the claim and
`Symbol.advance`'s own docstring ("Returns Advance.Reject if token doesn't
match"). -/
theorem C6_reject_raises_typeerror :
    grammarAdvance (gRegExpAdvance [(0, ['\x00']), (1, ['x'])] 0) 0
      ⟨some ['[', 'a', ']']⟩ 1 = .error .typeError := rfl

/-- C7 (code bug): the parser never strips `# ...` comments.  On the exact
grammar used by `tests.py::test_grammar_parser` — `root ::= "hi"` followed by
a comment line — session creation fails with `GrammarError("expected rule")`
at the comment line, although the claim (and that test) require the comment
to be ignored. -/
theorem C7_comments_not_stripped :
    grammarNew 400
        (("\n        root ::= \"hi\"\n        # Testing case when grammar ends with non-terminated line with comment").data)
      = .error .grammarError := rfl

/-- Counterexample for C8 as stated: the grammar text defining `root` twice
(`root ::= "a"` then `root ::= "b"`) does not raise `ValidationError`;
session creation succeeds, with the later definition in force. -/
theorem C8_duplicate_rule_cex :
    grammarNew 64 (("root ::= \"a\"\nroot ::= \"b\"").data)
        = .ok ([(rootName, .terminal ['b'])], .terminal ['b']) ∧
      grammarNew 64 (("root ::= \"a\"\nroot ::= \"b\"").data)
        ≠ .error .validationError := by
  have h1 : grammarNew 64 (("root ::= \"a\"\nroot ::= \"b\"").data)
      = .ok ([(rootName, .terminal ['b'])], .terminal ['b']) := rfl
  refine ⟨h1, ?_⟩
  rw [h1]
  simp

/-- C8 (amended): defining the same rule name twice does not raise; the rule
loop of `Grammar.reset` performs a plain dict assignment, so the later
definition overwrites the earlier one (first conjunct, for every rule map),
and session creation on a concrete duplicate-`root` grammar succeeds with the
later body as the active symbol (second conjunct). -/
theorem C8_duplicate_rule_overwrites :
    (∀ (rules : List (List Char × GSym)) (n : List Char) (sym : GSym),
        assocLookup (assocUpdate rules n sym) n = some sym) ∧
      grammarNew 64 (("root ::= \"a\"\nroot ::= \"b\"").data)
        = .ok ([(rootName, .terminal ['b'])], .terminal ['b']) := by
  constructor
  · intro rules n sym
    induction rules with
    | nil => simp [assocUpdate, assocLookup]
    | cons hd tl ih =>
      obtain ⟨a, b⟩ := hd
      by_cases hab : a = n
      · simp [assocUpdate, assocLookup, hab]
      · simp [assocUpdate, assocLookup, hab, ih]
  · rfl

/-- C9 (amended): on the postfix `+`, the parser pops the last expression `A`
of the current sequence and pushes `Repeat('+', A)` in its place — a single
`Repeat` of mode `+`, not `Sequence(A, Repeat('*', A))`; when `A` is a
`RegExp`, the inner symbol is `RegExp(A.pattern + "+")` (second conjunct).
(The unamended desugaring claim fails: see the counterexample.) -/
theorem C9_plus_is_single_repeat (fuel : Nat) (parenth : Bool) (init : List GSym)
    (left : GSym) (rest : List Char) :
    parseSeqGo (fuel + 1) parenth (init ++ [left]) ('+' :: rest)
        = parseSeqGo fuel parenth (init ++ [repeatRewrite '+' left]) rest ∧
      (∀ v : List Char, repeatRewrite '+' (.regexp v) = .repeatG '+' (.regexp (v ++ ['+']))) := by
  refine ⟨?_, fun v => rfl⟩
  have h2 : matchTermName ('+' :: rest) = none := by
    simp [matchTermName, List.dropWhile_cons, List.takeWhile_cons,
      show isSpaceTab '+' = false from rfl, show isNameChar '+' = false from rfl]
  simp [parseSeqGo, h2, squote, List.getLast?_concat, List.dropLast_concat,
    show isSpaceTab '+' = false from rfl]

/-- Witness for C9 on a concrete parse: `"[ab]+"` parses to
`Repeat('+', RegExp("[ab]+"))`. -/
theorem C9_plus_is_single_repeat_witness :
    parseSeqGo 50 false ([] ++ [GSym.regexp (("[ab]").data)]) ('+' :: [])
        = parseSeqGo 49 false ([] ++ [repeatRewrite '+' (GSym.regexp (("[ab]").data))]) [] ∧
      repeatRewrite '+' (GSym.regexp (("[ab]").data))
        = GSym.repeatG '+' (.regexp (("[ab]+").data)) := by
  refine ⟨(C9_plus_is_single_repeat 49 false [] (GSym.regexp (("[ab]").data)) []).1, rfl⟩

/-- Counterexample for C9 as stated: parsing `[ab]+` yields the single symbol
`Repeat('+', RegExp("[ab]+"))`, which is not of the claimed shape
`Sequence(A, Repeat('*', ...))`. -/
theorem C9_plus_is_single_repeat_cex :
    parseRule 50 false (("[ab]+").data)
        = .ok (.repeatG '+' (.regexp (("[ab]+").data)), []) ∧
      GSym.repeatG '+' (.regexp (("[ab]+").data))
        ≠ GSym.sequence [.regexp (("[ab]").data), .repeatG '*' (.regexp (("[ab]+").data))] :=
  ⟨rfl, fun h => GSym.noConfusion h⟩
